import Mathlib

set_option autoImplicit false

/-!
Shallow embedding of the nats.deno client library pieces referenced by the
specification: stream/consumer name validation, the key-value layer, the
subscription multiplexer (max-messages and pending-request bookkeeping),
permission-violation handling, the ordered consumer, pull-consumer fetch,
the connect/authentication path and the creds authenticator.  Interfaces
come from src/nats-base-client/types.ts; behaviour whose implementation is
not part of the sources is modelled from the specification, and checked
against the test vectors present in src/unnamed/part_000 and part_001.
-/

namespace NatsDeno

/-- Error codes of the client (error.ts is not under src/; the codes below
are the ones named by the tests in src/unnamed/part_001). -/
inductive ErrorCode where
  | authorizationViolation
  | badAuthentication
  | permissionsViolation
  | timeout
  | jetStreamNotEnabled
deriving DecidableEq, Repr

/-! ## Name validation (claim C8) -/

/-- Characters that are never allowed in a stream or consumer name. -/
def badNameChar (c : Char) : Bool :=
  c = '.' || c = '*' || c = '>'

/-- Modelled from the spec: `validateName(context, name)` (jsutil.ts, not
under src/) rejects the empty name and any name containing a `.`, `*` or
`>` character, and accepts everything else; it runs client-side before any
request is sent.  Its behaviour is pinned by the table of the
"jsm - validate name" test in src/unnamed/part_000. -/
def validateName (context name : String) : Except String Unit :=
  if name = "" then .error (context ++ " name required")
  else if name.toList.any badNameChar then
    .error (context ++ " name cannot contain dot, star or gt")
  else .ok ()

/-- True when a validation result is an acceptance. -/
def accepted (r : Except String Unit) : Bool :=
  match r with
  | .ok _ => true
  | .error _ => false

/-- The validation table of the "jsm - validate name" test in
src/unnamed/part_000 (lines 751-779): each pair is a name together with
whether `validateName` must accept it. -/
def validateNameVectors : List (String × Bool) :=
  [("", false), (".", false), ("*", false), (">", false),
   ("hello.", false), ("hello.*", false), ("hello.>", false),
   ("one.two", false), ("one*two", false), ("one>two", false),
   ("stream", true)]

/-- C8: `validateName` rejects the empty string and every name containing a
'.', '*' or '>' character anywhere in it, accepts every non-empty name
containing none of those characters, and agrees with the full table of the
"jsm - validate name" test. -/
theorem validateName_spec :
    (∀ context name : String,
      accepted (validateName context name) = true ↔
        (name ≠ "" ∧ ∀ c ∈ name.toList, ¬(c = '.' ∨ c = '*' ∨ c = '>')))
    ∧ (validateNameVectors.all
        (fun v => accepted (validateName "stream" v.1) = v.2)) = true := by
  constructor
  · intro context name
    unfold validateName
    by_cases h0 : name = ""
    · simp [h0, accepted]
    · simp only [h0, if_false, ne_eq, not_false_eq_true, true_and]
      by_cases h1 : name.toList.any badNameChar
      · simp only [h1, if_true, accepted]
        simp only [List.any_eq_true, badNameChar, Bool.or_eq_true,
          decide_eq_true_eq] at h1
        obtain ⟨c, hc, hbad⟩ := h1
        constructor
        · intro h; exact absurd h (by simp)
        · intro h; exact ((h c hc) (by tauto)).elim
      · simp only [h1, if_false, accepted]
        simp only [List.any_eq_true, badNameChar, Bool.or_eq_true,
          decide_eq_true_eq, not_exists, not_and, not_or] at h1 ⊢
        constructor
        · intro _ c hc
          have := h1 c hc
          tauto
        · intro _; rfl
  · decide

/-- C8 witness: the universal part of `validateName_spec` evaluated at the
concrete name "one*two" (rejected) and at "stream" (accepted). -/
theorem validateName_spec_witness :
    (accepted (validateName "stream" "one*two") = true ↔
      (("one*two" : String) ≠ "" ∧
        ∀ c ∈ ("one*two" : String).toList, ¬(c = '.' ∨ c = '*' ∨ c = '>'))) ∧
    accepted (validateName "stream" "stream") = true := by
  refine ⟨validateName_spec.1 "stream" "one*two", ?_⟩
  have h := (validateName_spec.1 "stream" "stream").2 (by decide)
  exact h

/-! ## Key-value layer (claim C2) -/

/-- Failures of the key-value precondition checks (spec section 4.4). -/
inductive KvError where
  | wrongLastSequence
  | keyExists
deriving DecidableEq, Repr

/-- A key-value bucket: the backing stream's last sequence number together
with, per key, the latest value and the revision (the stream sequence of
that key's latest write).  Interface from KvEntry / KV in
src/nats-base-client/types.ts. -/
structure Bucket where
  seq : Nat
  entries : List (String × List Nat × Nat)
deriving DecidableEq, Repr

/-- The current revision of a key: the stream sequence of its latest write,
0 when the key has never been written (no prior sequence for the subject). -/
def Bucket.revision (b : Bucket) (k : String) : Nat :=
  match b.entries.find? (fun e => e.1 = k) with
  | some e => e.2.2
  | none => 0

/-- The current value of a key, none when the key has never been written. -/
def Bucket.value (b : Bucket) (k : String) : Option (List Nat) :=
  match b.entries.find? (fun e => e.1 = k) with
  | some e => some e.2.1
  | none => none

/-- Modelled from the spec: KV `update(key, value, expectedRevision)`
(interface KV.update of src/nats-base-client/types.ts) publishes with an
exact expected-last-sequence-for-subject precondition: when the expected
revision differs from the key's current revision the write fails with a
revision-mismatch error leaving the bucket untouched; otherwise the write
is appended at the next stream sequence, which becomes the key's revision
and is returned. -/
def Bucket.update (b : Bucket) (k : String) (v : List Nat) (rev : Nat) :
    Bucket × Except KvError Nat :=
  if rev = b.revision k then
    let seq' := b.seq + 1
    ({ seq := seq',
       entries := (k, v, seq') :: b.entries.filter (fun e => ¬ e.1 = k) },
     .ok seq')
  else (b, .error .wrongLastSequence)

/-- C2: when the expected revision differs from the key's current revision,
`update` fails with a revision-mismatch error and the bucket — in
particular the key's current value and revision — is unchanged; an
immediate retry with the freshly observed current revision succeeds,
returns the new revision (the next stream sequence), and makes it the
key's current value and revision. -/
theorem kv_update_spec (b : Bucket) (k : String) (v : List Nat) (rev : Nat)
    (hne : rev ≠ b.revision k) :
    (b.update k v rev).2 = .error .wrongLastSequence
    ∧ (b.update k v rev).1 = b
    ∧ (b.update k v rev).1.value k = b.value k
    ∧ (b.update k v rev).1.revision k = b.revision k
    ∧ (b.update k v (b.revision k)).2 = .ok (b.seq + 1)
    ∧ (b.update k v (b.revision k)).1.value k = some v
    ∧ (b.update k v (b.revision k)).1.revision k = b.seq + 1 := by
  have hfail : b.update k v rev = (b, .error .wrongLastSequence) := by
    simp [Bucket.update, hne]
  have hok :
      b.update k v (b.revision k) =
        ({ seq := b.seq + 1,
           entries := (k, v, b.seq + 1) ::
             b.entries.filter (fun e => ¬ e.1 = k) }, .ok (b.seq + 1)) := by
    simp [Bucket.update]
  refine ⟨by rw [hfail], by rw [hfail], by rw [hfail], by rw [hfail],
    by rw [hok], ?_, ?_⟩
  · rw [hok]; simp [Bucket.value, List.find?]
  · rw [hok]; simp [Bucket.revision, List.find?]

/-- C2 witness: `kv_update_spec` on the one-key bucket holding key "k" with
value [1] at revision 1 and stream sequence 1, updated with the stale
revision 0 and then with the fresh revision 1. -/
theorem kv_update_spec_witness :
    (0 : Nat) ≠ (Bucket.revision ⟨1, [("k", [1], 1)]⟩ "k")
    ∧ ((Bucket.update ⟨1, [("k", [1], 1)]⟩ "k" [2] 0).2 =
        .error .wrongLastSequence
      ∧ (Bucket.update ⟨1, [("k", [1], 1)]⟩ "k" [2] 0).1 =
          ⟨1, [("k", [1], 1)]⟩
      ∧ (Bucket.update ⟨1, [("k", [1], 1)]⟩ "k" [2] 0).1.value "k" =
          Bucket.value ⟨1, [("k", [1], 1)]⟩ "k"
      ∧ (Bucket.update ⟨1, [("k", [1], 1)]⟩ "k" [2] 0).1.revision "k" =
          Bucket.revision ⟨1, [("k", [1], 1)]⟩ "k"
      ∧ (Bucket.update ⟨1, [("k", [1], 1)]⟩ "k" [2]
          (Bucket.revision ⟨1, [("k", [1], 1)]⟩ "k")).2 = .ok (1 + 1)
      ∧ (Bucket.update ⟨1, [("k", [1], 1)]⟩ "k" [2]
          (Bucket.revision ⟨1, [("k", [1], 1)]⟩ "k")).1.value "k" = some [2]
      ∧ (Bucket.update ⟨1, [("k", [1], 1)]⟩ "k" [2]
          (Bucket.revision ⟨1, [("k", [1], 1)]⟩ "k")).1.revision "k" = 1 + 1) :=
  ⟨by decide, kv_update_spec ⟨1, [("k", [1], 1)]⟩ "k" [2] 0 (by decide)⟩

/-! ## Subscription max-messages bookkeeping (claim C5) -/

/-- Client-side state of one subscription: the received counter, the
optional max-messages auto-unsubscribe threshold and the closed flag
(interface Sub / Base of src/nats-base-client/types.ts). -/
structure SubState where
  received : Nat
  max : Option Nat
  closed : Bool
deriving DecidableEq, Repr

/-- Modelled from the spec: a subscription created with a max-messages
threshold (SubscriptionOptions.max); it auto-removes once its
received-count reaches the threshold, so a threshold of 0 is already
reached at creation. -/
def mkSub (n : Nat) : SubState :=
  { received := 0, max := some n, closed := decide (n ≤ 0) }

/-- Modelled from the spec: `unsubscribe(max?)` (Sub.unsubscribe of
src/nats-base-client/types.ts).  Without a count the subscription is
removed immediately; with a count it auto-removes once the received-count
reaches the count, immediately when already reached. -/
def SubState.unsubscribe (s : SubState) (m : Option Nat) : SubState :=
  match m with
  | none => { s with closed := true }
  | some n => { s with max := some n, closed := decide (n ≤ s.received) }

/-- Modelled from the spec: delivery of one inbound message.  A closed
(removed) subscription drops the message; otherwise the message is counted
and handed to the sink, and the subscription auto-removes once the
received-count reaches the max threshold.  Returns the new state and the
message as seen by the sink, if any. -/
def SubState.deliver (s : SubState) (msg : Nat) : SubState × Option Nat :=
  if s.closed then (s, none)
  else
    let r := s.received + 1
    let cl := match s.max with
      | some m => decide (m ≤ r)
      | none => false
    ({ s with received := r, closed := cl }, some msg)

/-- Delivery of a whole inbound sequence, collecting what the sink sees. -/
def deliverAll (s : SubState) : List Nat → SubState × List Nat
  | [] => (s, [])
  | m :: rest =>
    let p := s.deliver m
    let q := deliverAll p.1 rest
    (q.1, p.2.toList ++ q.2)

/-- With a max threshold n and the closed flag agreeing with the
received-count having reached it, delivering any inbound sequence hands
the sink exactly the first n - received messages and leaves the counter at
min n (received + length). -/
theorem deliverAll_max (msgs : List Nat) (r n : Nat)
    (hr : r ≤ n) :
    deliverAll ⟨r, some n, decide (n ≤ r)⟩ msgs =
      (⟨min n (r + msgs.length), some n, decide (n ≤ r + msgs.length)⟩,
        msgs.take (n - r)) := by
  induction msgs generalizing r with
  | nil =>
    simp [deliverAll, Nat.min_eq_right]
    omega
  | cons m rest ih =>
    by_cases hcl : n ≤ r
    · have hrn : r = n := le_antisymm hr hcl
      subst hrn
      have hstep : SubState.deliver ⟨r, some r, decide (r ≤ r)⟩ m =
          (⟨r, some r, decide (r ≤ r)⟩, none) := by
        simp [SubState.deliver]
      have hrest : deliverAll ⟨r, some r, decide (r ≤ r)⟩ rest =
          (⟨min r (r + rest.length), some r,
            decide (r ≤ r + rest.length)⟩, rest.take (r - r)) :=
        ih r le_rfl
      simp only [deliverAll, hstep, hrest, Option.toList_none, List.nil_append]
      simp only [Prod.mk.injEq, SubState.mk.injEq, List.length_cons,
        Nat.sub_self, List.take_zero, decide_eq_decide]
      refine ⟨⟨?_, trivial, ?_⟩, trivial⟩ <;> omega
    · have hlt : r < n := lt_of_le_of_ne hr (fun h => hcl (le_of_eq h.symm))
      have hstep : SubState.deliver ⟨r, some n, decide (n ≤ r)⟩ m =
          (⟨r + 1, some n, decide (n ≤ r + 1)⟩, some m) := by
        simp [SubState.deliver, hcl]
      have hrest := ih (r + 1) hlt
      have hnr : n - r = (n - (r + 1)) + 1 := by omega
      simp only [deliverAll, hstep, hrest, Option.toList_some,
        List.singleton_append, Prod.mk.injEq, SubState.mk.injEq,
        List.length_cons, hnr, List.take_succ_cons, decide_eq_decide]
      refine ⟨⟨?_, trivial, ?_⟩, trivial⟩ <;> omega

/-- C5: a subscription with max-messages threshold n — whether created with
`max: n` or retargeted by `unsubscribe(max = n)` after having already
received r ≤ n messages — hands its sink at most n messages in total no
matter how many the server sends, delivers exactly the first messages up
to the threshold, and auto-removes (closes) exactly when its
received-count reaches n. -/
theorem sub_max_spec (n r : Nat) (msgs : List Nat) (hr : r ≤ n) :
    ((deliverAll (mkSub n) msgs).2.length ≤ n
      ∧ (deliverAll (mkSub n) msgs).2 = msgs.take n
      ∧ (deliverAll (mkSub n) msgs).1.received = min n msgs.length
      ∧ ((deliverAll (mkSub n) msgs).1.closed = true ↔ n ≤ msgs.length))
    ∧ (r + (deliverAll (SubState.unsubscribe ⟨r, none, false⟩ (some n))
          msgs).2.length ≤ n) := by
  have h0 : mkSub n = ⟨0, some n, decide (n ≤ 0)⟩ := rfl
  have hmain := deliverAll_max msgs 0 n (Nat.zero_le n)
  have hunsub : SubState.unsubscribe ⟨r, none, false⟩ (some n) =
      ⟨r, some n, decide (n ≤ r)⟩ := rfl
  have hr' := deliverAll_max msgs r n hr
  refine ⟨⟨?_, ?_, ?_, ?_⟩, ?_⟩
  · rw [h0, hmain]
    simp only [Nat.sub_zero]
    exact List.length_take_le n msgs
  · rw [h0, hmain]; simp
  · rw [h0, hmain]; simp
  · rw [h0, hmain]; simp
  · rw [hunsub, hr']
    have := List.length_take_le (n - r) msgs
    simp only []
    omega

/-- C5 witness: `sub_max_spec` with threshold 2, a subscription that had
already received 1 message, and an inbound sequence of 5 messages: the
sink sees only the first 2, the counter stops at 2 and the subscription
closes. -/
theorem sub_max_spec_witness :
    (1 ≤ 2)
    ∧ (((deliverAll (mkSub 2) [10, 11, 12, 13, 14]).2.length ≤ 2
      ∧ (deliverAll (mkSub 2) [10, 11, 12, 13, 14]).2 =
          [10, 11, 12, 13, 14].take 2
      ∧ (deliverAll (mkSub 2) [10, 11, 12, 13, 14]).1.received =
          min 2 [10, 11, 12, 13, 14].length
      ∧ ((deliverAll (mkSub 2) [10, 11, 12, 13, 14]).1.closed = true ↔
          2 ≤ [10, 11, 12, 13, 14].length))
    ∧ (1 + (deliverAll (SubState.unsubscribe ⟨1, none, false⟩ (some 2))
          [10, 11, 12, 13, 14]).2.length ≤ 2)) :=
  ⟨by decide, sub_max_spec 2 1 [10, 11, 12, 13, 14] (by decide)⟩

/-! ## Request/reply pending table (claim C4) -/

/-- The request/reply multiplexer state: the next fresh inbox suffix token
and the tokens of the outstanding requests (the pending table). -/
structure MuxState where
  nextToken : Nat
  pending : List Nat
deriving DecidableEq, Repr

/-- A well-formed multiplexer never has a pending token at or above the
fresh-token counter. -/
def MuxWf (m : MuxState) : Prop :=
  ∀ t ∈ m.pending, t < m.nextToken

/-- Modelled from the spec: `request()` generates a unique suffix token and
registers a promise keyed by that token in the pending table. -/
def MuxState.addRequest (m : MuxState) : MuxState × Nat :=
  ({ nextToken := m.nextToken + 1, pending := m.nextToken :: m.pending },
   m.nextToken)

/-- Modelled from the spec: the locally enforced request timeout removes the
token's registration from the pending table and signals a timeout error to
the caller. -/
def MuxState.onTimeout (m : MuxState) (t : Nat) :
    MuxState × Except ErrorCode Unit :=
  ({ m with pending := m.pending.erase t }, .error .timeout)

/-- Modelled from the spec: arrival of a matching reply resolves the
registration and removes it from the pending table. -/
def MuxState.onReply (m : MuxState) (t : Nat) : MuxState :=
  { m with pending := m.pending.erase t }

/-- One request that times out: register a fresh token, then expire it. -/
def timeoutRound (m : MuxState) : MuxState :=
  let p := m.addRequest
  (p.1.onTimeout p.2).1

/-- One timed-out request leaves a well-formed pending table exactly as it
was, bumping only the fresh-token counter. -/
theorem timeoutRound_eq (m : MuxState) (hwf : MuxWf m) :
    timeoutRound m = ⟨m.nextToken + 1, m.pending⟩ := by
  have hnotmem : m.nextToken ∉ m.pending := fun h =>
    lt_irrefl m.nextToken (hwf m.nextToken h)
  simp [timeoutRound, MuxState.addRequest, MuxState.onTimeout,
    List.erase_cons_head, List.erase_of_not_mem hnotmem]

/-- C4: a timed-out request rejects with a timeout error and its inbox
token is removed from the pending table, and after any number of
registered-then-timed-out requests a well-formed pending table holds
exactly its original registrations — no leak. -/
theorem request_timeout_spec (m : MuxState) (n : Nat) (hwf : MuxWf m) :
    ((m.addRequest.1.onTimeout m.addRequest.2).2 = .error .timeout)
    ∧ (m.addRequest.2 ∉ (m.addRequest.1.onTimeout m.addRequest.2).1.pending)
    ∧ ((timeoutRound^[n] m).pending = m.pending) := by
  have hnotmem : m.nextToken ∉ m.pending := fun h =>
    lt_irrefl m.nextToken (hwf m.nextToken h)
  refine ⟨rfl, ?_, ?_⟩
  · simpa [MuxState.addRequest, MuxState.onTimeout, List.erase_cons_head,
      List.erase_of_not_mem hnotmem] using hnotmem
  · have key : ∀ k : Nat, ∀ mm : MuxState, MuxWf mm →
        timeoutRound^[k] mm = ⟨mm.nextToken + k, mm.pending⟩ := by
      intro k
      induction k with
      | zero => intro mm _; simp
      | succ k ih =>
        intro mm hmm
        rw [Function.iterate_succ_apply, timeoutRound_eq mm hmm]
        have hwf' : MuxWf ⟨mm.nextToken + 1, mm.pending⟩ := by
          intro t ht
          exact lt_trans (hmm t ht) (Nat.lt_succ_self _)
        rw [ih _ hwf']
        simp
        omega
    rw [key n m hwf]

/-- C4 witness: `request_timeout_spec` on a multiplexer with one live
registration (token 0, counter 1), running 3 register-then-timeout
requests: the pending table still holds exactly token 0. -/
theorem request_timeout_spec_witness :
    MuxWf ⟨1, [0]⟩
    ∧ (((MuxState.addRequest ⟨1, [0]⟩).1.onTimeout
          (MuxState.addRequest ⟨1, [0]⟩).2).2 = .error .timeout
      ∧ ((MuxState.addRequest ⟨1, [0]⟩).2 ∉
          ((MuxState.addRequest ⟨1, [0]⟩).1.onTimeout
            (MuxState.addRequest ⟨1, [0]⟩).2).1.pending)
      ∧ ((timeoutRound^[3] ⟨1, [0]⟩).pending = MuxState.pending ⟨1, [0]⟩)) :=
  ⟨by simp [MuxWf], request_timeout_spec ⟨1, [0]⟩ 3 (by simp [MuxWf])⟩

/-! ## Permission-violation handling (claim C1) -/

/-- Status event types (enum Events of src/nats-base-client/types.ts). -/
inductive EventKind where
  | disconnect
  | reconnect
  | update
  | ldm
  | error
deriving DecidableEq, Repr

/-- A typed status event as emitted on the connection's status stream
(interface Status of src/nats-base-client/types.ts; for asynchronous
errors the data is the error code). -/
structure StatusEvent where
  type : EventKind
  data : ErrorCode
deriving DecidableEq, Repr

/-- One registered subscription as the connection sees it: identifier,
subject, closed flag, and the error handed to its callback/iterator, if
any. -/
structure SubEntry where
  sid : Nat
  subject : String
  closed : Bool
  err : Option String
deriving DecidableEq, Repr

/-- The connection's observable state: its subscriptions, the status
stream emitted so far, and whether it is closed. -/
structure Conn where
  subs : List SubEntry
  status : List StatusEvent
  closed : Bool
deriving DecidableEq, Repr

/-- The `isClosed()` observation of NatsConnection
(src/nats-base-client/types.ts). -/
def Conn.isClosed (c : Conn) : Bool := c.closed

/-- The error text the server reports for a subscription permission
violation, as asserted by the "auth - sub no permissions keeps connection"
test of src/unnamed/part_001. -/
def permissionViolationMsg (subject : String) : String :=
  "Permissions Violation for Subscription to \"" ++ subject ++ "\""

/-- Modelled from the spec: handling of a server permissions-violation
error for a subscription on the given subject.  The violation is emitted
as an asynchronous error status event, the offending subscription is
closed with the error delivered to its callback/iterator, every other
subscription is untouched, and the connection itself is not torn down. -/
def Conn.onSubPermissionViolation (c : Conn) (subject : String) : Conn :=
  { subs := c.subs.map (fun s =>
      if s.subject = subject then
        { s with closed := true, err := some (permissionViolationMsg subject) }
      else s),
    status := c.status ++ [⟨.error, .permissionsViolation⟩],
    closed := c.closed }

/-- Modelled from the spec: handling of a server permissions-violation
error for a publish on the given subject: only an asynchronous error
status event is emitted; subscriptions and connection are untouched. -/
def Conn.onPubPermissionViolation (c : Conn) (_subject : String) : Conn :=
  { c with status := c.status ++ [⟨.error, .permissionsViolation⟩] }

/-- C1: a server permission violation for a subscription or a publish is
reported as an asynchronous error status event; for a subscription the
offending subscription alone is closed with the violation delivered as an
error to its sink, subscriptions on other subjects are untouched; and in
both cases the connection stays open: `isClosed()` still returns false
afterwards. -/
theorem permission_violation_spec (c : Conn) (subject : String)
    (hopen : c.isClosed = false) :
    ((c.onSubPermissionViolation subject).status =
        c.status ++ [⟨.error, .permissionsViolation⟩])
    ∧ (∀ s ∈ c.subs, s.subject = subject →
        (⟨s.sid, s.subject, true,
            some (permissionViolationMsg subject)⟩ : SubEntry) ∈
          (c.onSubPermissionViolation subject).subs)
    ∧ (∀ s ∈ c.subs, s.subject ≠ subject →
        s ∈ (c.onSubPermissionViolation subject).subs)
    ∧ ((c.onSubPermissionViolation subject).isClosed = false)
    ∧ ((c.onPubPermissionViolation subject).status =
        c.status ++ [⟨.error, .permissionsViolation⟩])
    ∧ ((c.onPubPermissionViolation subject).subs = c.subs)
    ∧ ((c.onPubPermissionViolation subject).isClosed = false) := by
  refine ⟨rfl, ?_, ?_, ?_, rfl, rfl, ?_⟩
  · intro s hs hsub
    simp only [Conn.onSubPermissionViolation, List.mem_map]
    exact ⟨s, hs, by simp [hsub]⟩
  · intro s hs hsub
    simp only [Conn.onSubPermissionViolation, List.mem_map]
    exact ⟨s, hs, by simp [hsub]⟩
  · simpa [Conn.onSubPermissionViolation, Conn.isClosed] using hopen
  · simpa [Conn.onPubPermissionViolation, Conn.isClosed] using hopen

/-- C1 witness: `permission_violation_spec` on an open connection holding a
subscription on "bar" (sid 1) and one on "foo" (sid 2), hit by a
permission violation for "bar". -/
theorem permission_violation_spec_witness :
    (Conn.isClosed ⟨[⟨1, "bar", false, none⟩, ⟨2, "foo", false, none⟩],
        [], false⟩ = false)
    ∧ (((Conn.onSubPermissionViolation
          ⟨[⟨1, "bar", false, none⟩, ⟨2, "foo", false, none⟩], [], false⟩
          "bar").status = [] ++ [⟨.error, .permissionsViolation⟩])
      ∧ (∀ s ∈ Conn.subs ⟨[⟨1, "bar", false, none⟩, ⟨2, "foo", false, none⟩],
            [], false⟩, s.subject = "bar" →
          (⟨s.sid, s.subject, true,
              some (permissionViolationMsg "bar")⟩ : SubEntry) ∈
            (Conn.onSubPermissionViolation
              ⟨[⟨1, "bar", false, none⟩, ⟨2, "foo", false, none⟩], [], false⟩
              "bar").subs)
      ∧ (∀ s ∈ Conn.subs ⟨[⟨1, "bar", false, none⟩, ⟨2, "foo", false, none⟩],
            [], false⟩, s.subject ≠ "bar" →
          s ∈ (Conn.onSubPermissionViolation
              ⟨[⟨1, "bar", false, none⟩, ⟨2, "foo", false, none⟩], [], false⟩
              "bar").subs)
      ∧ ((Conn.onSubPermissionViolation
            ⟨[⟨1, "bar", false, none⟩, ⟨2, "foo", false, none⟩], [], false⟩
            "bar").isClosed = false)
      ∧ ((Conn.onPubPermissionViolation
            ⟨[⟨1, "bar", false, none⟩, ⟨2, "foo", false, none⟩], [], false⟩
            "bar").status = [] ++ [⟨.error, .permissionsViolation⟩])
      ∧ ((Conn.onPubPermissionViolation
            ⟨[⟨1, "bar", false, none⟩, ⟨2, "foo", false, none⟩], [], false⟩
            "bar").subs =
          Conn.subs ⟨[⟨1, "bar", false, none⟩, ⟨2, "foo", false, none⟩],
            [], false⟩)
      ∧ ((Conn.onPubPermissionViolation
            ⟨[⟨1, "bar", false, none⟩, ⟨2, "foo", false, none⟩], [], false⟩
            "bar").isClosed = false)) :=
  ⟨rfl, permission_violation_spec
    ⟨[⟨1, "bar", false, none⟩, ⟨2, "foo", false, none⟩], [], false⟩
    "bar" rfl⟩

/-! ## Ordered consumer (claim C3) -/

/-- Acknowledgement policies (enum AckPolicy of
src/nats-base-client/types.ts). -/
inductive AckPolicy where
  | none
  | all
  | explicit
  | notSet
deriving DecidableEq, Repr

/-- The consumer configuration fields the ordered-consumer constraints are
about (interface ConsumerConfig of src/nats-base-client/types.ts). -/
structure ConsumerConfig where
  ack_policy : AckPolicy
  durable_name : Option String
  deliver_subject : Option String
  flow_control : Bool
  idle_heartbeat : Option Nat
  max_deliver : Option Nat
deriving DecidableEq, Repr

/-- Consumer options as assembled by ConsumerOptsBuilder (interface
ConsumerOpts of src/nats-base-client/types.ts) plus whether the
subscription runs in pull mode. -/
structure ConsumerOpts where
  config : ConsumerConfig
  mack : Bool
  ordered : Bool
  pullMode : Bool
deriving DecidableEq, Repr

/-- Modelled from the spec: the options `ConsumerOptsBuilder.orderedConsumer`
builds (src/nats-base-client/types.ts line 407: ordered consumers cannot be
a pull consumer nor specify durable, an ack policy, maxDeliver, or flow
control): an ephemeral push consumer with ack-none, no manual acking, no
durable name, no flow control, heartbeats for gap detection. -/
def orderedConsumerOpts : ConsumerOpts :=
  { config := { ack_policy := AckPolicy.none, durable_name := Option.none,
                deliver_subject := some "inbox", flow_control := false,
                idle_heartbeat := some 5000, max_deliver := Option.none },
    mack := false, ordered := true, pullMode := false }

/-- Modelled from the spec: one delivery epoch of the ordered consumer.
Messages whose stream sequence is exactly the expected next one are passed
to the caller; at the first discontinuity (redelivered duplicate or gap)
the epoch is abandoned and the engine asks for a consumer reset resuming
just after the last successfully observed stream sequence.  Returns the
messages passed through and the reset point, if any. -/
def processEpoch : Nat → List Nat → List Nat × Option Nat
  | _, [] => ([], Option.none)
  | expected, s :: rest =>
    if s = expected then
      let p := processEpoch (expected + 1) rest
      (s :: p.1, p.2)
    else ([], some expected)

/-- Modelled from the spec: after recreation the server redelivers the
stream contiguously from the requested sequence up to the last stream
sequence. -/
def faithfulEpoch (start last : Nat) : List Nat :=
  List.range' start (last + 1 - start)

/-- Modelled from the spec: the ordered-consumer engine run.  It consumes
the current epoch; on a detected discontinuity it transparently recreates
the consumer (at most `fuel` times) resuming just after the last observed
sequence, and the recreated consumer receives a faithful contiguous
epoch. -/
def orderedRun : Nat → Nat → Nat → List Nat → List Nat
  | 0, expected, _, epoch => (processEpoch expected epoch).1
  | fuel + 1, expected, last, epoch =>
    match processEpoch expected epoch with
    | (ds, Option.none) => ds
    | (ds, some st) => ds ++ orderedRun fuel st last (faithfulEpoch st last)

/-- The synthetic faulty delivery trace of the claim: the server delivers
1..N in order, redelivers N a second time, then skips to N+2 and continues
up to `last`. -/
def faultyTrace (n last : Nat) : List Nat :=
  List.range' 1 n ++ (n :: List.range' (n + 2) (last - (n + 1)))

/-- A contiguous prefix is passed through unchanged and processing
continues after it. -/
theorem processEpoch_range_append (n : Nat) :
    ∀ (e : Nat) (l : List Nat),
      processEpoch e (List.range' e n ++ l) =
        ((List.range' e n) ++ (processEpoch (e + n) l).1,
          (processEpoch (e + n) l).2) := by
  induction n with
  | zero => intro e l; simp
  | succ n ih =>
    intro e l
    rw [List.range'_succ, List.cons_append]
    simp only [processEpoch, eq_self_iff_true, if_true, ih (e + 1) l,
      List.cons_append]
    rw [show e + 1 + n = e + (n + 1) from by omega]

/-- A faithful contiguous epoch is consumed completely with no reset. -/
theorem processEpoch_range (e n : Nat) :
    processEpoch e (List.range' e n) = (List.range' e n, Option.none) := by
  have h := processEpoch_range_append n e []
  simpa [processEpoch] using h

/-- C3: replayed against the synthetic server that redelivers sequence N a
second time and then skips to N+2, the ordered consumer hands the caller
exactly the strictly increasing sequence 1, 2, ..., last — every sequence
exactly once, no duplicate and no gap; and the ordered-consumer options
never use pull mode, explicit acking (neither ack policy nor manual ack),
a durable name, or flow control. -/
theorem ordered_consumer_spec (n last : Nat) (_h1 : 1 ≤ n)
    (h2 : n + 2 ≤ last) :
    (orderedRun 1 1 last (faultyTrace n last) = List.range' 1 last
      ∧ (orderedRun 1 1 last (faultyTrace n last)).Pairwise (· < ·))
    ∧ (orderedConsumerOpts.pullMode = false
      ∧ orderedConsumerOpts.config.ack_policy = AckPolicy.none
      ∧ orderedConsumerOpts.mack = false
      ∧ orderedConsumerOpts.config.durable_name = Option.none
      ∧ orderedConsumerOpts.config.flow_control = false) := by
  have hmismatch : processEpoch (1 + n) (n :: List.range' (n + 2)
      (last - (n + 1))) = ([], some (1 + n)) := by
    have hne : ¬(n = 1 + n) := by omega
    simp [processEpoch, hne]
  have hp : processEpoch 1 (faultyTrace n last) =
      (List.range' 1 n, some (1 + n)) := by
    rw [faultyTrace, processEpoch_range_append n 1, hmismatch]
    simp
  have hfaith : processEpoch (1 + n) (faithfulEpoch (1 + n) last) =
      (faithfulEpoch (1 + n) last, Option.none) := by
    rw [faithfulEpoch]
    exact processEpoch_range (1 + n) (last + 1 - (1 + n))
  have hrun : orderedRun 1 1 last (faultyTrace n last) =
      List.range' 1 n ++ faithfulEpoch (1 + n) last := by
    simp only [orderedRun, hp, hfaith]
  have happ : List.range' 1 n ++ faithfulEpoch (1 + n) last =
      List.range' 1 last := by
    rw [faithfulEpoch]
    have := List.range'_append 1 n (last + 1 - (1 + n)) 1
    simp only [one_mul, mul_one] at this
    rw [this]
    congr 1
    omega
  refine ⟨⟨hrun.trans happ, ?_⟩, rfl, rfl, rfl, rfl, rfl⟩
  rw [hrun.trans happ]
  exact List.pairwise_lt_range' 1 last

/-- C3 witness: `ordered_consumer_spec` with N = 2 and last sequence 4: the
trace 1, 2, 2, 4 is healed to the caller-visible sequence 1, 2, 3, 4. -/
theorem ordered_consumer_spec_witness :
    (1 ≤ 2 ∧ 2 + 2 ≤ 4)
    ∧ ((orderedRun 1 1 4 (faultyTrace 2 4) = List.range' 1 4
      ∧ (orderedRun 1 1 4 (faultyTrace 2 4)).Pairwise (· < ·))
    ∧ (orderedConsumerOpts.pullMode = false
      ∧ orderedConsumerOpts.config.ack_policy = AckPolicy.none
      ∧ orderedConsumerOpts.mack = false
      ∧ orderedConsumerOpts.config.durable_name = Option.none
      ∧ orderedConsumerOpts.config.flow_control = false)) :=
  ⟨⟨by decide, by decide⟩, ordered_consumer_spec 2 4 (by decide) (by decide)⟩

/-! ## Pull-consumer fetch (claim C6) -/

/-- One item arriving on the inbox of a pull request: a stream message, or
the terminal status telling the client the request is over (no messages /
request expired). -/
inductive FetchItem where
  | msg (seq : Nat)
  | doneStatus
deriving DecidableEq, Repr

/-- Modelled from the spec: the server's reply to one pull request
(PullOptions of src/nats-base-client/types.ts: batch, expires, no_wait).
It delivers up to `batch` of the stream's available messages; when fewer
than `batch` are available the terminal "no messages"/expired status
follows instead of blocking past the expiry. -/
def serverPull (stream : List Nat) (batch : Nat) : List FetchItem :=
  (stream.take batch).map FetchItem.msg ++
    (if stream.length < batch then [FetchItem.doneStatus] else [])

/-- Modelled from the spec: the consumer side of `fetch`
(JetStreamClient.fetch of src/nats-base-client/types.ts): a bounded lazy
sequence that ends when the batch budget is exhausted, a terminal status
arrives, or the inbox ends. -/
def fetchConsume : Nat → List FetchItem → List Nat
  | _, [] => []
  | _, FetchItem.doneStatus :: _ => []
  | 0, FetchItem.msg _ :: _ => []
  | budget + 1, FetchItem.msg s :: rest => s :: fetchConsume budget rest

/-- Modelled from the spec: `fetch(batch)` issues exactly one pull and
consumes its reply; a fresh fetch issues a fresh pull. -/
def fetch (stream : List Nat) (batch : Nat) : List Nat :=
  fetchConsume batch (serverPull stream batch)

/-- Consuming a message list within budget yields exactly those messages,
whether the tail ends silently or with the terminal status. -/
theorem fetchConsume_msgs (l : List Nat) :
    ∀ (budget : Nat) (tail : List FetchItem), l.length ≤ budget →
      (tail = [] ∨ tail = [FetchItem.doneStatus]) →
      fetchConsume budget (l.map FetchItem.msg ++ tail) = l := by
  induction l with
  | nil =>
    intro budget tail _ htail
    rcases htail with h | h <;> subst h <;> cases budget <;> rfl
  | cons s rest ih =>
    intro budget tail hlen htail
    cases budget with
    | zero => simp at hlen
    | succ b =>
      have hlen' : rest.length ≤ b := by
        simp only [List.length_cons] at hlen
        omega
      simp only [List.map_cons, List.cons_append, fetchConsume]
      exact congrArg (List.cons s) (ih b tail hlen' htail)

/-- C6: one `fetch(batch)` yields a finite sequence of at most `batch`
messages — exactly the first min(batch, available) messages of the stream
— and when the stream holds fewer than `batch` messages it yields exactly
those and the pull reply carries the terminal status that ends the
iterator instead of blocking past the expiry. -/
theorem fetch_spec (stream : List Nat) (batch : Nat)
    (hlt : stream.length < batch) :
    (∀ (st : List Nat) (b : Nat),
      (fetch st b).length ≤ b ∧ fetch st b = st.take b)
    ∧ (fetch stream batch = stream
      ∧ FetchItem.doneStatus ∈ serverPull stream batch) := by
  have hgen : ∀ (st : List Nat) (b : Nat), fetch st b = st.take b := by
    intro st b
    rw [fetch, serverPull]
    by_cases h : st.length < b
    · exact fetchConsume_msgs (st.take b) b _
        (le_trans (List.length_take_le b st) le_rfl)
        (Or.inr (by rw [if_pos h]))
    · exact fetchConsume_msgs (st.take b) b _
        (List.length_take_le b st) (Or.inl (by rw [if_neg h]))
  refine ⟨fun st b => ⟨?_, hgen st b⟩, ?_, ?_⟩
  · rw [hgen st b]; exact List.length_take_le b st
  · rw [hgen stream batch]
    exact List.take_of_length_le (le_of_lt hlt)
  · rw [serverPull, if_pos hlt]
    simp

/-- C6 witness: `fetch_spec` with batch 5 against a stream holding 3
messages: exactly those 3 messages come back and the terminal status ends
the pull. -/
theorem fetch_spec_witness :
    ([20, 21, 22] : List Nat).length < 5
    ∧ ((∀ (st : List Nat) (b : Nat),
        (fetch st b).length ≤ b ∧ fetch st b = st.take b)
    ∧ (fetch [20, 21, 22] 5 = [20, 21, 22]
      ∧ FetchItem.doneStatus ∈ serverPull [20, 21, 22] 5)) :=
  ⟨by decide, fetch_spec [20, 21, 22] 5 (by decide)⟩

/-! ## Connect and authentication (claims C7 and C9) -/

/-- What the user-supplied authenticator does when invoked for a connect
attempt: produce credential material, or throw (spec section 6,
Authenticator). -/
inductive AuthOutcome where
  | material (m : Nat)
  | throws
deriving DecidableEq, Repr

/-- One configured server, reduced to whether it accepts the client's
resolved credentials. -/
structure ServerSpec where
  acceptsCreds : Bool
deriving DecidableEq, Repr

/-- The connect options involved in the credential checks
(interface ConnectionOptions of src/nats-base-client/types.ts: user, pass,
token). -/
structure ConnectionOptions where
  user : Option String
  pass : Option String
  token : Option String
deriving DecidableEq, Repr

/-- Modelled from the spec: the client-side options check run by `connect`
before any network activity; supplying both a user and a token is a
conflict reported as a bad-authentication error (test "auth - user and
token is rejected" of src/unnamed/part_001). -/
def checkOptions (o : ConnectionOptions) : Except ErrorCode Unit :=
  match o.user, o.token with
  | some _, some _ => .error .badAuthentication
  | _, _ => .ok ()

/-- Modelled from the spec (section 4.1): the connect loop attempts the
servers in list order; an authentication rejection advances to the next
server, and exhausting the list fails the connect with the server's
authorization-violation error. -/
def tryServers (m : Nat) : List ServerSpec → Except ErrorCode Nat
  | [] => .error .authorizationViolation
  | s :: rest => if s.acceptsCreds then .ok m else tryServers m rest

/-- Modelled from the spec: one full `connect` call: check the options,
resolve the authenticator (a throwing authenticator is a fatal
bad-authentication error), then walk the server list. -/
def connect (o : ConnectionOptions) (auth : AuthOutcome)
    (servers : List ServerSpec) : Except ErrorCode Nat :=
  match checkOptions o with
  | .error e => .error e
  | .ok _ =>
    match auth with
    | .throws => .error .badAuthentication
    | .material m => tryServers m servers

/-- Connect options with no user/token conflict: no user and no token. -/
def cleanOptions : ConnectionOptions :=
  { user := Option.none, pass := Option.none, token := Option.none }

/-- C7: when authentication cannot be resolved locally the connect promise
rejects with the terminal authentication cause and no usable connection is
returned: if every configured server rejects the credentials the result is
the authorization-violation error, and if the user-supplied authenticator
throws the result is the bad-authentication error — never a connection. -/
theorem connect_auth_failure_spec (servers : List ServerSpec) (m : Nat)
    (hrej : ∀ s ∈ servers, s.acceptsCreds = false) :
    (connect cleanOptions (.material m) servers =
        .error .authorizationViolation
      ∧ ∀ c : Nat, connect cleanOptions (.material m) servers ≠ .ok c)
    ∧ (connect cleanOptions .throws servers = .error .badAuthentication
      ∧ ∀ c : Nat, connect cleanOptions .throws servers ≠ .ok c) := by
  have hwalk : tryServers m servers = .error .authorizationViolation := by
    induction servers with
    | nil => rfl
    | cons s rest ih =>
      have hs : s.acceptsCreds = false := hrej s (List.mem_cons_self s rest)
      have hrest : ∀ x ∈ rest, x.acceptsCreds = false := fun x hx =>
        hrej x (List.mem_cons_of_mem s hx)
      simp [tryServers, hs, ih hrest]
  have hconn : connect cleanOptions (.material m) servers =
      .error .authorizationViolation := by
    simp [connect, checkOptions, cleanOptions, hwalk]
  have hthrow : connect cleanOptions .throws servers =
      .error .badAuthentication := by
    simp [connect, checkOptions, cleanOptions]
  refine ⟨⟨hconn, ?_⟩, hthrow, ?_⟩
  · intro c h; rw [hconn] at h; cases h
  · intro c h; rw [hthrow] at h; cases h

/-- C7 witness: `connect_auth_failure_spec` against two servers that both
reject the credentials. -/
theorem connect_auth_failure_spec_witness :
    (∀ s ∈ [ServerSpec.mk false, ServerSpec.mk false],
        s.acceptsCreds = false)
    ∧ ((connect cleanOptions (.material 7)
          [ServerSpec.mk false, ServerSpec.mk false] =
            .error .authorizationViolation
      ∧ ∀ c : Nat, connect cleanOptions (.material 7)
          [ServerSpec.mk false, ServerSpec.mk false] ≠ .ok c)
    ∧ (connect cleanOptions .throws
          [ServerSpec.mk false, ServerSpec.mk false] =
            .error .badAuthentication
      ∧ ∀ c : Nat, connect cleanOptions .throws
          [ServerSpec.mk false, ServerSpec.mk false] ≠ .ok c)) :=
  ⟨by decide, connect_auth_failure_spec
    [ServerSpec.mk false, ServerSpec.mk false] 7 (by decide)⟩

/-- C9: a connect options object carrying both a user and a token is
rejected client-side with a bad-authentication error — whatever the
authenticator and the servers would have done — so no connection is
returned and the conflict is never silently resolved. -/
theorem user_token_conflict_spec (o : ConnectionOptions) (u t : String)
    (auth : AuthOutcome) (servers : List ServerSpec)
    (hu : o.user = some u) (ht : o.token = some t) :
    connect o auth servers = .error .badAuthentication
    ∧ ∀ c : Nat, connect o auth servers ≠ .ok c := by
  have hchk : checkOptions o = .error .badAuthentication := by
    rw [checkOptions, hu, ht]
  have hconn : connect o auth servers = .error .badAuthentication := by
    rw [connect.eq_def, hchk]
  exact ⟨hconn, fun c h => by rw [hconn] at h; cases h⟩

/-- C9 witness: `user_token_conflict_spec` on the options of the
"auth - user and token is rejected" test (user "derek", token "foobar")
against one accepting server. -/
theorem user_token_conflict_spec_witness :
    (ConnectionOptions.user
        ⟨some "derek", Option.none, some "foobar"⟩ = some "derek"
      ∧ ConnectionOptions.token
        ⟨some "derek", Option.none, some "foobar"⟩ = some "foobar")
    ∧ (connect ⟨some "derek", Option.none, some "foobar"⟩
        (.material 7) [ServerSpec.mk true] = .error .badAuthentication
      ∧ ∀ c : Nat, connect ⟨some "derek", Option.none, some "foobar"⟩
          (.material 7) [ServerSpec.mk true] ≠ .ok c) :=
  ⟨⟨rfl, rfl⟩, user_token_conflict_spec
    ⟨some "derek", Option.none, some "foobar"⟩ "derek" "foobar"
    (.material 7) [ServerSpec.mk true] rfl rfl⟩

/-! ## Creds authenticator (claim C10) -/

/-- Whitespace trimmed around the content lines of a creds block. -/
def isSpaceChar (c : Char) : Bool :=
  c = ' ' || c = '\t' || c = '\r'

/-- Trim surrounding whitespace from one line. -/
def trimLine (l : List Char) : List Char :=
  ((l.dropWhile isSpaceChar).reverse.dropWhile isSpaceChar).reverse

/-- Split a character stream into lines at newline characters; the first
argument accumulates the current line in reverse. -/
def splitLines : List Char → List Char → List (List Char)
  | acc, [] => [acc.reverse]
  | acc, c :: rest =>
    if c = '\n' then acc.reverse :: splitLines [] rest
    else splitLines (c :: acc) rest

/-- Does a line contain the marker as a contiguous substring? -/
def hasMarker (marker line : List Char) : Bool :=
  (List.range (line.length + 1)).any
    (fun i => marker.isPrefixOf (line.drop i))

/-- The lines strictly after the first line containing the marker. -/
def afterMarker (marker : List Char) : List (List Char) → List (List Char)
  | [] => []
  | l :: rest => if hasMarker marker l then rest else afterMarker marker rest

/-- The lines strictly before the first line containing the marker. -/
def beforeMarker (marker : List Char) : List (List Char) → List (List Char)
  | [] => []
  | l :: rest =>
    if hasMarker marker l then [] else l :: beforeMarker marker rest

/-- Modelled from the spec: block extraction of the creds file parser of
`credsAuthenticator` (authenticator.ts, not under src/): the concatenation
of the trimmed lines strictly between the first line containing the begin
marker and the following line containing the end marker. -/
def extractBlock (begMarker endMarker creds : List Char) : List Char :=
  List.flatten
    ((beforeMarker endMarker
        (afterMarker begMarker (splitLines [] creds))).map trimLine)

/-- The JWT block of a creds file. -/
def jwtBlock (creds : List Char) : List Char :=
  extractBlock "BEGIN NATS USER JWT".toList "END NATS USER JWT".toList creds

/-- The NKEY seed block of a creds file. -/
def seedBlock (creds : List Char) : List Char :=
  extractBlock "BEGIN USER NKEY SEED".toList "END USER NKEY SEED".toList
    creds

/-- Modelled from the spec: the external nkeys collaborator derives the
user public key deterministically from the seed (the creds-validation test
of src/unnamed/part_001 checks the authenticator reports exactly the
keypair's public key). -/
def derivePublicKey (seed : List Char) : List Char :=
  'U' :: seed.drop 2

/-- Modelled from the spec: signing the server nonce with the seed's key
yields a 64-byte ed25519 signature, modelled as a deterministic function
of seed and nonce. -/
def signNonce (seed nonce : List Char) : List Nat :=
  (List.range 64).map
    (fun i => (seed.length * (i + 1) + nonce.length + i) % 256)

/-- The credential material an authenticator returns for a nonce (NKeyAuth
of authenticator.ts, named by the creds-validation test of
src/unnamed/part_001). -/
structure NKeyAuth where
  nkey : List Char
  sig : List Nat
  jwt : List Char
deriving DecidableEq, Repr

/-- Modelled from the spec: `credsAuthenticator(creds)` parses the JWT and
seed blocks and throws unless both are present and non-empty; otherwise it
returns the authenticator closing over them, which for any nonce signs the
nonce with the seed and reports the public key derived from the seed
together with the jwt. -/
def credsAuthenticator (creds : List Char) :
    Except String (List Char → NKeyAuth) :=
  if jwtBlock creds = [] then .error "creds file is not a valid creds file"
  else if seedBlock creds = [] then
    .error "creds file is not a valid creds file"
  else .ok (fun nonce =>
    { nkey := derivePublicKey (seedBlock creds),
      sig := signNonce (seedBlock creds) nonce,
      jwt := jwtBlock creds })

/-- Did `credsAuthenticator` accept the creds text? -/
def credsOk (creds : List Char) : Bool :=
  match credsAuthenticator creds with
  | .ok _ => true
  | .error _ => false

/-- The material the authenticator built from the creds text returns for a
nonce, none when the creds were rejected. -/
def credsApply (creds nonce : List Char) : Option NKeyAuth :=
  match credsAuthenticator creds with
  | .ok f => some (f nonce)
  | .error _ => Option.none

/-- The creds template of the "auth - creds authenticator validation" test
(src/unnamed/part_001, lines 461-474): a jwt and a seed interpolated into
marker-delimited blocks. -/
def mkCreds (ajwt aseed : String) : List Char :=
  ("-----BEGIN NATS USER JWT-----\n    " ++ ajwt ++
   "\n  ------END NATS USER JWT------\n" ++
   "\n" ++
   "************************* IMPORTANT *************************\n" ++
   "  NKEY Seed printed below can be used sign and prove identity.\n" ++
   "    NKEYs are sensitive and should be treated as secrets.\n" ++
   "\n" ++
   "  -----BEGIN USER NKEY SEED-----\n    " ++ aseed ++
   "\n  ------END USER NKEY SEED------\n ").toList

/-- C10: `credsAuthenticator` accepts exactly the creds texts whose JWT
block and NKEY seed block are both non-empty — in particular, on the test
template it rejects the creds missing the jwt, the seed or both and
accepts the complete one — and on acceptance the authenticator applied to
any nonce returns the public key derived from the seed, a non-empty
(64-byte) signature over the nonce, and the jwt. -/
theorem credsAuthenticator_spec (creds nonce : List Char)
    (hjwt : jwtBlock creds ≠ []) (hseed : seedBlock creds ≠ []) :
    (∀ cr : List Char,
      credsOk cr = true ↔ (jwtBlock cr ≠ [] ∧ seedBlock cr ≠ []))
    ∧ (credsApply creds nonce =
        some ⟨derivePublicKey (seedBlock creds),
              signNonce (seedBlock creds) nonce, jwtBlock creds⟩
      ∧ (signNonce (seedBlock creds) nonce).length = 64
      ∧ signNonce (seedBlock creds) nonce ≠ [])
    ∧ (credsOk (mkCreds "" "") = false
      ∧ credsOk (mkCreds "jwtX" "") = false
      ∧ credsOk (mkCreds "" "SUASEEDX") = false
      ∧ credsOk (mkCreds "jwtX" "SUASEEDX") = true
      ∧ jwtBlock (mkCreds "jwtX" "SUASEEDX") = "jwtX".toList
      ∧ seedBlock (mkCreds "jwtX" "SUASEEDX") = "SUASEEDX".toList) := by
  have hlen : (signNonce (seedBlock creds) nonce).length = 64 := by
    simp [signNonce]
  refine ⟨?_, ⟨?_, hlen, ?_⟩, by decide, by decide, by decide, by decide,
    by decide, by decide⟩
  · intro cr
    by_cases h1 : jwtBlock cr = [] <;> by_cases h2 : seedBlock cr = [] <;>
      simp [credsOk, credsAuthenticator, h1, h2]
  · simp [credsApply, credsAuthenticator, hjwt, hseed]
  · intro h
    rw [h] at hlen
    simp at hlen

/-- C10 witness: `credsAuthenticator_spec` on the complete test-template
creds (jwt "jwtX", seed "SUASEEDX") with the nonce "helloworld" used by
the test. -/
theorem credsAuthenticator_spec_witness :
    (jwtBlock (mkCreds "jwtX" "SUASEEDX") ≠ []
      ∧ seedBlock (mkCreds "jwtX" "SUASEEDX") ≠ [])
    ∧ (credsApply (mkCreds "jwtX" "SUASEEDX") "helloworld".toList =
        some ⟨derivePublicKey (seedBlock (mkCreds "jwtX" "SUASEEDX")),
              signNonce (seedBlock (mkCreds "jwtX" "SUASEEDX"))
                "helloworld".toList,
              jwtBlock (mkCreds "jwtX" "SUASEEDX")⟩
      ∧ (signNonce (seedBlock (mkCreds "jwtX" "SUASEEDX"))
          "helloworld".toList).length = 64
      ∧ signNonce (seedBlock (mkCreds "jwtX" "SUASEEDX"))
          "helloworld".toList ≠ []) :=
  ⟨⟨by decide, by decide⟩,
   (credsAuthenticator_spec (mkCreds "jwtX" "SUASEEDX")
     "helloworld".toList (by decide) (by decide)).2.1⟩

end NatsDeno
